import Mathlib

/-!
Shallow embedding of CachedCompressedReadBuffer
(src/dbms/include/DB/IO/CachedCompressedReadBuffer.h).

The reader serves byte ranges of a compressed on-disk stream through a
shared cache of decompressed blocks.  The collaborators that are not part
of the excerpt (UncompressedCache, CompressedReadBufferBase, Memory) are
modelled from the spec; the reader logic itself (nextImpl, seek,
initInput) is translated from the source.

Machine integers: file offsets and sizes are size_t in the source.  The
only places where size_t wraparound is reachable in the modelled
operations are the subtraction in the fast-path test of seek
(file_pos - owned_cell->compressed_size) and the running byte counter
(bytes += offset(); ...; bytes -= offset()), so those use explicit
mod-2^64 arithmetic; additions of frame sizes to file positions cannot
reach 2^64 for any representable file and are kept as plain Nat.
-/

/-- Width of size_t. -/
def W : Nat := 2 ^ 64

/-- Wrapping size_t addition. -/
def add64 (a b : Nat) : Nat := (a + b) % W

/-- Wrapping size_t subtraction. -/
def sub64 (a b : Nat) : Nat := (a + (W - b % W)) % W

/-- A decompressed block as held in the cache and by the reader
(UncompressedCacheCell): the decompressed payload bytes and the total
number of bytes the frame occupied in the compressed file. -/
structure Block where
  compressed_size : Nat
  data : List Nat
deriving DecidableEq

/-- Modelled from the spec: the FrameCodec collaborator
(CompressedReadBufferBase, not under src).  A stream maps each
compressed-file offset to the frame that readCompressedData + decompress
yield when the file is positioned there; a frame with
compressed_size = 0 is the end-of-stream sentinel (readCompressedData
returns 0 at end of file). -/
abbrev FrameStream := Nat → Block

/-- Modelled from the spec: the cache key.  hash(path, offset) is pure,
deterministic and treated as collision free within operational
assumptions, so the key is modelled as the (path, offset) pair itself. -/
abbrev CacheKey : Type := String × Nat

/-- Modelled from the spec: the shared UncompressedCache (not under src)
as a mapping from keys to blocks.  Eviction is elided: the spec
guarantees the entry inserted by a set survives that set, and eviction
only removes entries, so it can never make an absent key present. -/
abbrev Cache : Type := List (CacheKey × Block)

/-- Cache lookup: the counted reference for the key if resident. -/
def Cache.get : Cache → CacheKey → Option Block
  | [], _ => none
  | (k, b) :: rest, key => if k = key then some b else Cache.get rest key

/-- Cache insert-or-overwrite: the new entry shadows any older one. -/
def Cache.set (c : Cache) (k : CacheKey) (b : Block) : Cache := (k, b) :: c

/-- Observable side effects of a reader operation, used to state that the
fast path of seek performs no cache lookup and no file access. -/
inductive Event where
  | cacheLookup : Event
  | fileAccess : Event
deriving DecidableEq

/-- Reader-session state of CachedCompressedReadBuffer: target path,
compressed-file cursor file_pos, the lazily opened byte source handle
file_in (modelled as whether it is open), the currently held block
owned_cell, and the inherited ReadBuffer state: working_buffer, the
cursor pos as an offset into working_buffer (pos - working_buffer.begin
in the source), and the running byte counter bytes. -/
structure ReaderState where
  path : String
  file_pos : Nat
  file_in : Bool
  owned_cell : Option Block
  working_buffer : List Nat
  pos : Nat
  bytes : Nat
deriving DecidableEq

/-- State constructed by the CachedCompressedReadBuffer constructor:
ReadBuffer(nullptr, 0) and file_pos = 0, no file opened, no owned cell. -/
def mkReader (p : String) : ReaderState :=
  { path := p, file_pos := 0, file_in := false, owned_cell := none,
    working_buffer := [], pos := 0, bytes := 0 }

/-- Result of nextImpl: updated reader state, updated cache, the return
value, and the trace of collaborator effects. -/
structure StepResult where
  st : ReaderState
  cache : Cache
  ok : Bool
  events : List Event
deriving DecidableEq

/-- The block nextImpl resolves at file_pos: the cached block on a hit;
on a miss, a fresh cell whose compressed_size is what readCompressedData
returned and whose data was resized and decompressed only when
compressed_size is nonzero (lines 75-88 of the source). -/
def resolvedCell (s : FrameStream) (st : ReaderState) (c : Cache) : Block :=
  match Cache.get c (st.path, st.file_pos) with
  | some b => b
  | none =>
    { compressed_size := (s st.file_pos).compressed_size,
      data :=
        if (s st.file_pos).compressed_size = 0 then [] else (s st.file_pos).data }

/-- The cache after nextImpl: unchanged on a hit; on a miss the freshly
decompressed cell is published only when compressed_size is nonzero
(line 87 of the source runs inside the if of line 81). -/
def cacheAfter (s : FrameStream) (st : ReaderState) (c : Cache) : Cache :=
  match Cache.get c (st.path, st.file_pos) with
  | some _ => c
  | none =>
    if (s st.file_pos).compressed_size = 0 then c
    else Cache.set c (st.path, st.file_pos) (resolvedCell s st c)

/-- Effect trace of nextImpl: always one cache lookup; on a miss also a
file access (initInput, file_in seek and the frame read). -/
def nextEvents (st : ReaderState) (c : Cache) : List Event :=
  match Cache.get c (st.path, st.file_pos) with
  | some _ => [Event.cacheLookup]
  | none => [Event.cacheLookup, Event.fileAccess]

/-- nextImpl (lines 62-102 of the source): look the key up in the cache;
on a miss open the file lazily, read and decompress the frame at
file_pos and publish it when it is not the end-of-stream sentinel; if
the resolved cell has an empty payload release owned_cell and return
false, otherwise expose the payload as working_buffer, advance file_pos
past the compressed bytes of the frame and return true. -/
def nextImpl (s : FrameStream) (st : ReaderState) (c : Cache) : StepResult :=
  let cell := resolvedCell s st c
  let opened := st.file_in || (Cache.get c (st.path, st.file_pos)).isNone
  if cell.data = [] then
    { st := { st with owned_cell := none, file_in := opened },
      cache := cacheAfter s st c,
      ok := false,
      events := nextEvents st c }
  else
    { st := { st with
        owned_cell := some cell,
        working_buffer := cell.data,
        file_pos := st.file_pos + cell.compressed_size,
        file_in := opened },
      cache := cacheAfter s st c,
      ok := true,
      events := nextEvents st c }

/-- The error thrown by seek (ErrorCodes::ARGUMENT_OUT_OF_BOUND). -/
inductive SeekError where
  | argumentOutOfBound : SeekError
deriving DecidableEq

/-- Result of seek: state, cache, the thrown error if any, effects. -/
structure SeekResult where
  st : ReaderState
  cache : Cache
  err : Option SeekError
  events : List Event
deriving DecidableEq

/-- The fast-path test of seek (lines 116-118 of the source): a cell is
held, offset_in_compressed_file equals file_pos minus the compressed
size of the held cell (size_t subtraction), and
offset_in_decompressed_block is at most the working-buffer size. -/
def fastPathCond (st : ReaderState) (off_c off_d : Nat) : Bool :=
  match st.owned_cell with
  | none => false
  | some cell =>
    decide (off_c = sub64 st.file_pos cell.compressed_size)
      && decide (off_d ≤ st.working_buffer.length)

/-- The slow path of seek (lines 124-136 of the source): set file_pos to
the requested compressed offset, account the bytes consumed so far,
run nextImpl (its return value is ignored by the source), throw when the
requested decompressed offset exceeds the working-buffer size, otherwise
place the cursor at that offset and re-balance the byte counter. -/
def slowSeek (s : FrameStream) (st : ReaderState) (c : Cache) (off_c off_d : Nat) :
    SeekResult :=
  let st0 := { st with file_pos := off_c, bytes := add64 st.bytes st.pos }
  let r := nextImpl s st0 c
  if r.st.working_buffer.length < off_d then
    { st := r.st, cache := r.cache,
      err := some SeekError.argumentOutOfBound, events := r.events }
  else
    { st := { r.st with pos := off_d, bytes := sub64 r.st.bytes off_d },
      cache := r.cache, err := none, events := r.events }

/-- seek (lines 114-137 of the source): on the fast path only the cursor
and the byte counter change; otherwise the slow path reloads the frame
at the requested compressed offset. -/
def seek (s : FrameStream) (st : ReaderState) (c : Cache) (off_c off_d : Nat) :
    SeekResult :=
  if fastPathCond st off_c off_d then
    { st := { st with pos := off_d, bytes := sub64 (add64 st.bytes st.pos) off_d },
      cache := c, err := none, events := [] }
  else
    slowSeek s st c off_c off_d

/-- The span of bytes readable from the current cursor position. -/
def readable (st : ReaderState) : List Nat := st.working_buffer.drop st.pos

/-- Modelled from the spec: DEFAULT_AIO_FILE_BLOCK_SIZE, the fixed I/O
alignment unit (its numeric value does not matter to the claims, only
that it is a fixed nonzero constant). -/
def DEFAULT_AIO_FILE_BLOCK_SIZE : Nat := 4096

/-- Modelled from the spec: Memory.align (not under src) rounds a value
up to the next multiple of the alignment unit. -/
def align (value alignment : Nat) : Nat :=
  if alignment = 0 then value else (value + alignment - 1) / alignment * alignment

/-- The growth target of the resize lambda in initInput (line 47 of the
source): growth_factor * size with growth_factor = 1.6, written in exact
arithmetic as 8 * size / 5; at the magnitudes the claims quantify over
the float expression 1.6f * size truncated to size_t yields the same
value. -/
def growFactorTimes (size : Nat) : Nat := 8 * size / 5

/-- The resize lambda of initInput (lines 42-48 of the source), as a
pure capacity function: a buffer of capacity zero is allocated to
exactly the requested size, a smaller existing buffer grows to the
1.6-fold of the request, a sufficient buffer is left unchanged. -/
def resize (capacity size : Nat) : Nat :=
  if capacity = 0 then size
  else if capacity < size then growFactorTimes size
  else capacity

/-- The size initInput passes to the resize lambda (lines 50-53 of the
source): the plain buf_size when the aio threshold is zero or the
estimated size is below it, otherwise twice the alignment-rounded
buf_size + DEFAULT_AIO_FILE_BLOCK_SIZE. -/
def initInputSize (aio_threshold estimated_size buf_size : Nat) : Nat :=
  if aio_threshold = 0 ∨ estimated_size < aio_threshold then buf_size
  else 2 * align (buf_size + DEFAULT_AIO_FILE_BLOCK_SIZE) DEFAULT_AIO_FILE_BLOCK_SIZE

/-- Capacity of the reusable working buffer after the first lazy open. -/
def initInputCapacity (capacity aio_threshold estimated_size buf_size : Nat) : Nat :=
  resize capacity (initInputSize aio_threshold estimated_size buf_size)

/-- Modelled from the spec: well-formed streams.  A zero-length payload
occurs exactly at the end-of-stream sentinel, whose total compressed
size is zero (readCompressedData returns 0 only at end of file, and a
non-sentinel frame carries a nonempty decompressed payload). -/
def streamWF (s : FrameStream) : Prop :=
  ∀ off, ((s off).compressed_size = 0 ↔ (s off).data = [])

/-- Consistency of the shared cache with a stream: every resident block
for the path is the frame of the stream at its offset and has a
nonempty payload (only nonempty decompressed frames are ever
published). -/
def cacheConsistent (s : FrameStream) (p : String) (c : Cache) : Prop :=
  ∀ off b, Cache.get c (p, off) = some b → b = s off ∧ b.data ≠ []

/-- Concrete witness stream: one real frame at offset 0 (128 compressed
bytes, payload [1, 2, 3]) followed by the end-of-stream sentinel. -/
def streamA : FrameStream := fun off =>
  if off = 0 then { compressed_size := 128, data := [1, 2, 3] }
  else { compressed_size := 0, data := [] }

/-- Concrete witness stream that is empty from the start. -/
def emptyStream : FrameStream := fun _ => { compressed_size := 0, data := [] }

/-- The first frame of streamA, also used as a concrete held block. -/
def blockA : Block := { compressed_size := 128, data := [1, 2, 3] }

/-- Concrete witness stream with real frames at offsets 0 and 128
followed by the end-of-stream sentinel. -/
def streamB : FrameStream := fun off =>
  if off = 0 then blockA
  else if off = 128 then { compressed_size := 64, data := [7, 8] }
  else { compressed_size := 0, data := [] }

/-- Concrete reader state that holds blockA, whose frame started at
offset 0, with file_pos just past its compressed bytes. -/
def readerA : ReaderState :=
  { path := "p", file_pos := 128, file_in := true, owned_cell := some blockA,
    working_buffer := [1, 2, 3], pos := 0, bytes := 0 }

/-! ## Helper lemmas -/

/-- The empty stream is well formed. -/
theorem emptyStream_wf : streamWF emptyStream :=
  fun _ => ⟨fun _ => rfl, fun _ => rfl⟩

/-- streamA is well formed. -/
theorem streamA_wf : streamWF streamA := by
  intro off
  by_cases h : off = 0 <;> simp [streamA, h]

/-- streamB is well formed. -/
theorem streamB_wf : streamWF streamB := by
  intro off
  by_cases h0 : off = 0
  · simp [streamB, h0, blockA]
  · by_cases h1 : off = 128 <;> simp [streamB, h0, h1]

/-- The empty cache is consistent with every stream. -/
theorem cacheConsistent_nil (s : FrameStream) (p : String) :
    cacheConsistent s p [] := by
  intro off b hb
  simp [Cache.get] at hb

/-- Size_t subtraction undoes addition below the word size. -/
theorem sub64_add_cancel (a b : Nat) (ha : a < W) (hb : b < W) :
    sub64 (a + b) b = a := by
  have hw : W = 18446744073709551616 := by norm_num [W]
  rw [hw] at ha hb
  simp only [sub64, hw]
  omega

/-- If every resident block of the cache is consistent with the stream,
no key whose offset carries the end-of-stream sentinel is resident. -/
theorem get_sentinel_none (s : FrameStream) (p : String) (c : Cache) (off : Nat)
    (hwf : streamWF s) (hc : cacheConsistent s p c)
    (hsent : (s off).compressed_size = 0) :
    Cache.get c (p, off) = none := by
  cases hget : Cache.get c (p, off) with
  | none => rfl
  | some b =>
    exfalso
    obtain ⟨hb, hne⟩ := hc off b hget
    exact hne (by rw [hb]; exact (hwf off).mp hsent)

/-- On a consistent cache, the cell nextImpl resolves at an offset that
carries a real frame is that frame, and its payload is nonempty. -/
theorem resolvedCell_real (s : FrameStream) (st : ReaderState) (c : Cache)
    (hwf : streamWF s) (hc : cacheConsistent s st.path c)
    (hreal : (s st.file_pos).compressed_size ≠ 0) :
    resolvedCell s st c = s st.file_pos ∧ (resolvedCell s st c).data ≠ [] := by
  have hdata : (s st.file_pos).data ≠ [] :=
    fun hd => hreal ((hwf st.file_pos).mpr hd)
  cases hget : Cache.get c (st.path, st.file_pos) with
  | some b =>
    obtain ⟨hb, hne⟩ := hc st.file_pos b hget
    constructor
    · simp [resolvedCell, hget, hb]
    · simp [resolvedCell, hget]
      exact hne
  | none =>
    constructor
    · simp [resolvedCell, hget, hreal]
    · simp [resolvedCell, hget, hreal]
      exact hdata

/-- Shape of nextImpl at an offset that carries a real frame, on a
consistent cache: success, the frame exposed, file_pos advanced past its
compressed bytes, cursor and byte counter untouched. -/
theorem nextImpl_real (s : FrameStream) (st : ReaderState) (c : Cache)
    (hwf : streamWF s) (hc : cacheConsistent s st.path c)
    (hreal : (s st.file_pos).compressed_size ≠ 0) :
    (nextImpl s st c).ok = true ∧
    (nextImpl s st c).st.owned_cell = some (s st.file_pos) ∧
    (nextImpl s st c).st.working_buffer = (s st.file_pos).data ∧
    (nextImpl s st c).st.file_pos = st.file_pos + (s st.file_pos).compressed_size ∧
    (nextImpl s st c).st.pos = st.pos ∧
    (nextImpl s st c).st.bytes = st.bytes ∧
    (nextImpl s st c).st.path = st.path := by
  obtain ⟨hcell, hne⟩ := resolvedCell_real s st c hwf hc hreal
  have hne2 : ¬((s st.file_pos).data = []) := by rw [hcell] at hne; exact hne
  simp [nextImpl, hcell, hne2]

/-- Shape of nextImpl at an offset that carries the end-of-stream
sentinel, on a consistent cache: failure, owned cell released, every
other component of the state and the cache untouched. -/
theorem nextImpl_sentinel (s : FrameStream) (st : ReaderState) (c : Cache)
    (hwf : streamWF s) (hc : cacheConsistent s st.path c)
    (hsent : (s st.file_pos).compressed_size = 0) :
    (nextImpl s st c).ok = false ∧
    (nextImpl s st c).st.owned_cell = none ∧
    (nextImpl s st c).st.working_buffer = st.working_buffer ∧
    (nextImpl s st c).st.file_pos = st.file_pos ∧
    (nextImpl s st c).st.pos = st.pos ∧
    (nextImpl s st c).st.bytes = st.bytes ∧
    (nextImpl s st c).cache = c := by
  have hget := get_sentinel_none s st.path c st.file_pos hwf hc hsent
  have hcell : resolvedCell s st c = { compressed_size := 0, data := [] } := by
    simp [resolvedCell, hget, hsent]
  simp [nextImpl, hcell, cacheAfter, hget, hsent]

/-! ## Claim theorems -/

/-- C1: when read_next resolves a zero-length decompressed block (the
end-of-stream sentinel), that block is never inserted into the shared
cache: after the call, cache.get for the key derived from
(path, offset) returns absent. -/
theorem sentinel_never_cached (s : FrameStream) (st : ReaderState) (c : Cache)
    (hwf : streamWF s) (hc : cacheConsistent s st.path c)
    (h : (resolvedCell s st c).data = []) :
    Cache.get (nextImpl s st c).cache (st.path, st.file_pos) = none := by
  cases hget : Cache.get c (st.path, st.file_pos) with
  | some b =>
    exfalso
    obtain ⟨hb, hne⟩ := hc st.file_pos b hget
    have hcell : resolvedCell s st c = b := by simp [resolvedCell, hget]
    rw [hcell] at h
    exact hne h
  | none =>
    by_cases hcs : (s st.file_pos).compressed_size = 0
    · have hcache : (nextImpl s st c).cache = c := by
        have hcell : resolvedCell s st c = { compressed_size := 0, data := [] } := by
          simp [resolvedCell, hget, hcs]
        simp [nextImpl, hcell, cacheAfter, hget, hcs]
      rw [hcache]
      exact hget
    · exfalso
      have hdata : (s st.file_pos).data = [] := by
        simpa [resolvedCell, hget, hcs] using h
      exact hcs ((hwf st.file_pos).mpr hdata)

/-- C1 witness: the empty stream, a fresh reader and the empty cache. -/
theorem sentinel_never_cached_witness :
    Cache.get (nextImpl emptyStream (mkReader "p") []).cache ("p", 0) = none :=
  sentinel_never_cached emptyStream (mkReader "p") []
    emptyStream_wf (cacheConsistent_nil emptyStream "p") (by decide)

/-- C9: whenever the resolved block (cache hit or miss-path fetch) has a
payload of length zero, the reader releases its owned block reference
and read_next returns false. -/
theorem zero_block_exhausts (s : FrameStream) (st : ReaderState) (c : Cache)
    (h : (resolvedCell s st c).data = []) :
    (nextImpl s st c).st.owned_cell = none ∧ (nextImpl s st c).ok = false := by
  simp [nextImpl, h]

/-- C9 witness: the empty stream, a fresh reader and the empty cache. -/
theorem zero_block_exhausts_witness :
    (nextImpl emptyStream (mkReader "p") []).st.owned_cell = none ∧
    (nextImpl emptyStream (mkReader "p") []).ok = false :=
  zero_block_exhausts emptyStream (mkReader "p") [] (by decide)

/-- C6: after a successful fetch, file_pos equals the offset at which
the just-read frame began plus the compressed size of that frame,
whether the block came from a cache hit or a miss-path decompression. -/
theorem file_pos_after_fetch (s : FrameStream) (st : ReaderState) (c : Cache)
    (hc : cacheConsistent s st.path c)
    (hok : (nextImpl s st c).ok = true) :
    (nextImpl s st c).st.file_pos =
      st.file_pos + (s st.file_pos).compressed_size := by
  by_cases hcell : (resolvedCell s st c).data = []
  · exfalso
    simp [nextImpl, hcell] at hok
  · have hfp : (nextImpl s st c).st.file_pos =
        st.file_pos + (resolvedCell s st c).compressed_size := by
      simp [nextImpl, hcell]
    rw [hfp]
    cases hget : Cache.get c (st.path, st.file_pos) with
    | some b =>
      have hb := (hc st.file_pos b hget).1
      simp [resolvedCell, hget, hb]
    | none => simp [resolvedCell, hget]

/-- C6 witness: streamA from a fresh reader on the empty cache. -/
theorem file_pos_after_fetch_witness :
    (nextImpl streamA (mkReader "p") []).st.file_pos =
      0 + (streamA 0).compressed_size :=
  file_pos_after_fetch streamA (mkReader "p") []
    (cacheConsistent_nil streamA "p") (by decide)

/-- C5: when the fast-path condition holds, seek performs no I/O and no
cache lookup (empty effect trace), does not throw, and changes only the
cursor and the byte counter: path, file_pos, the byte-source handle,
the owned block, the working buffer and the cache are unchanged. -/
theorem seek_fast_path_frame (s : FrameStream) (st : ReaderState) (c : Cache)
    (off_c off_d : Nat) (hfast : fastPathCond st off_c off_d = true) :
    (seek s st c off_c off_d).st.path = st.path ∧
    (seek s st c off_c off_d).st.file_pos = st.file_pos ∧
    (seek s st c off_c off_d).st.file_in = st.file_in ∧
    (seek s st c off_c off_d).st.owned_cell = st.owned_cell ∧
    (seek s st c off_c off_d).st.working_buffer = st.working_buffer ∧
    (seek s st c off_c off_d).cache = c ∧
    (seek s st c off_c off_d).events = [] ∧
    (seek s st c off_c off_d).err = none ∧
    (seek s st c off_c off_d).st.pos = off_d := by
  simp [seek, hfast]

/-- C5 witness: readerA holds blockA whose frame started at offset 0. -/
theorem seek_fast_path_frame_witness :
    (seek streamA readerA [] 0 2).events = [] ∧
    (seek streamA readerA [] 0 2).st.pos = 2 := by
  have h := seek_fast_path_frame streamA readerA [] 0 2 (by decide)
  exact ⟨h.2.2.2.2.2.2.1, h.2.2.2.2.2.2.2.2⟩

/-- C7: the buffer-sizing rule of the first lazy open: a buffer of
capacity zero is allocated to exactly the requested size; an existing
smaller buffer is grown to 1.6 times the requested size (8 * size / 5 in
exact arithmetic) rather than to the exact requested size; a buffer
whose capacity already meets the request is left unchanged; requesting
1000 and then 2000 yields capacity at least 3200, not exactly 2000. -/
theorem resize_policy_spec (cap size : Nat) :
    (cap = 0 → resize cap size = size) ∧
    (0 < cap → cap < size → resize cap size = 8 * size / 5) ∧
    (0 < cap → size ≤ cap → resize cap size = cap) ∧
    (3200 ≤ resize (resize 0 1000) 2000 ∧ resize (resize 0 1000) 2000 ≠ 2000) := by
  refine ⟨?_, ?_, ?_, by decide⟩
  · intro h
    simp [resize, h]
  · intro h1 h2
    unfold resize growFactorTimes
    rw [if_neg (by omega), if_pos h2]
  · intro h1 h2
    unfold resize
    rw [if_neg (by omega), if_neg (by omega)]

/-- C7 witness: the three branches at concrete capacities and sizes. -/
theorem resize_policy_spec_witness :
    resize 0 7 = 7 ∧ resize 1000 2000 = 3200 ∧ resize 5 3 = 5 := by
  refine ⟨(resize_policy_spec 0 7).1 rfl, ?_, ?_⟩
  · have h := (resize_policy_spec 1000 2000).2.1 (by decide) (by decide)
    rw [h]
  · exact (resize_policy_spec 5 3).2.2.1 (by decide) (by decide)

/-- C8: when the aio threshold is nonzero and the estimated stream size
meets it, the size passed to the resize rule is twice an
alignment-rounded size (a multiple of the fixed I/O alignment unit);
when the threshold is zero the plain requested size is used for every
estimated size. -/
theorem init_input_size_spec (aio_threshold estimated_size buf_size : Nat) :
    (aio_threshold ≠ 0 → aio_threshold ≤ estimated_size →
      initInputSize aio_threshold estimated_size buf_size =
        2 * align (buf_size + DEFAULT_AIO_FILE_BLOCK_SIZE) DEFAULT_AIO_FILE_BLOCK_SIZE ∧
      align (buf_size + DEFAULT_AIO_FILE_BLOCK_SIZE) DEFAULT_AIO_FILE_BLOCK_SIZE %
        DEFAULT_AIO_FILE_BLOCK_SIZE = 0) ∧
    (aio_threshold = 0 →
      initInputSize aio_threshold estimated_size buf_size = buf_size) := by
  constructor
  · intro h1 h2
    constructor
    · unfold initInputSize
      rw [if_neg (by omega)]
    · unfold align DEFAULT_AIO_FILE_BLOCK_SIZE
      rw [if_neg (by omega)]
      exact Nat.mul_mod_left _ 4096
  · intro h
    unfold initInputSize
    rw [if_pos (Or.inl h)]

/-- C8 witness: both branches at concrete parameters. -/
theorem init_input_size_spec_witness :
    initInputSize 10 20 100 =
      2 * align (100 + DEFAULT_AIO_FILE_BLOCK_SIZE) DEFAULT_AIO_FILE_BLOCK_SIZE ∧
    initInputSize 0 999 77 = 77 :=
  ⟨((init_input_size_spec 10 20 100).1 (by decide) (by decide)).1,
   (init_input_size_spec 0 999 77).2 rfl⟩

/-- Shape of the slow seek path when the requested compressed offset
carries a real frame, on a consistent cache: the frame is loaded and
exposed, file_pos lands just past its compressed bytes, the call throws
exactly when the requested decompressed offset exceeds the payload
length, and otherwise the cursor and byte counter are set. -/
theorem slowSeek_real (s : FrameStream) (st : ReaderState) (c : Cache)
    (off_c off_d : Nat)
    (hwf : streamWF s) (hc : cacheConsistent s st.path c)
    (hreal : (s off_c).compressed_size ≠ 0) :
    (slowSeek s st c off_c off_d).st.file_pos = off_c + (s off_c).compressed_size ∧
    (slowSeek s st c off_c off_d).st.working_buffer = (s off_c).data ∧
    (slowSeek s st c off_c off_d).st.owned_cell = some (s off_c) ∧
    ((slowSeek s st c off_c off_d).err = some SeekError.argumentOutOfBound ↔
      (s off_c).data.length < off_d) ∧
    (off_d ≤ (s off_c).data.length →
      (slowSeek s st c off_c off_d).err = none ∧
      (slowSeek s st c off_c off_d).st.pos = off_d ∧
      (slowSeek s st c off_c off_d).st.bytes = sub64 (add64 st.bytes st.pos) off_d) := by
  obtain ⟨hok, hcell, hwb, hfp, hpos, hbytes, hpath⟩ :=
    nextImpl_real s { st with file_pos := off_c, bytes := add64 st.bytes st.pos } c
      hwf hc hreal
  by_cases hlen :
      (nextImpl s { st with file_pos := off_c, bytes := add64 st.bytes st.pos }
        c).st.working_buffer.length < off_d
  · have hlen2 : (s off_c).data.length < off_d := by rw [hwb] at hlen; exact hlen
    have hs : slowSeek s st c off_c off_d =
        { st := (nextImpl s { st with file_pos := off_c, bytes := add64 st.bytes st.pos } c).st,
          cache := (nextImpl s { st with file_pos := off_c, bytes := add64 st.bytes st.pos } c).cache,
          err := some SeekError.argumentOutOfBound,
          events := (nextImpl s { st with file_pos := off_c, bytes := add64 st.bytes st.pos } c).events } := by
      simp [slowSeek, hlen]
    rw [hs]
    refine ⟨hfp, hwb, hcell, by simp [hlen2], ?_⟩
    intro hle
    exact absurd hlen2 (by omega)
  · have hlen2 : ¬ (s off_c).data.length < off_d := by rw [hwb] at hlen; exact hlen
    have hs : slowSeek s st c off_c off_d =
        { st := { (nextImpl s { st with file_pos := off_c, bytes := add64 st.bytes st.pos } c).st with
            pos := off_d,
            bytes := sub64 (nextImpl s { st with file_pos := off_c, bytes := add64 st.bytes st.pos } c).st.bytes off_d },
          cache := (nextImpl s { st with file_pos := off_c, bytes := add64 st.bytes st.pos } c).cache,
          err := none,
          events := (nextImpl s { st with file_pos := off_c, bytes := add64 st.bytes st.pos } c).events } := by
      simp [slowSeek, hlen]
    rw [hs]
    refine ⟨by simpa using hfp, by simpa using hwb, by simpa using hcell, by simp [hlen2], ?_⟩
    intro hle
    refine ⟨rfl, rfl, ?_⟩
    show sub64 (nextImpl s { st with file_pos := off_c, bytes := add64 st.bytes st.pos } c).st.bytes off_d =
      sub64 (add64 st.bytes st.pos) off_d
    rw [hbytes]

/-- C3: a slow-path seek sets file_pos to the requested compressed
offset and loads the frame there (file_pos then sits just past its
compressed bytes and the payload is exposed); the call fails with the
out-of-bounds error exactly when the decompressed offset exceeds the
payload length of the newly loaded block, and otherwise positions the
cursor at that offset within the block. -/
theorem slow_seek_out_of_bounds_iff (s : FrameStream) (st : ReaderState)
    (c : Cache) (off_c off_d : Nat)
    (hwf : streamWF s) (hc : cacheConsistent s st.path c)
    (hslow : fastPathCond st off_c off_d = false)
    (hreal : (s off_c).compressed_size ≠ 0) :
    (seek s st c off_c off_d).st.file_pos = off_c + (s off_c).compressed_size ∧
    (seek s st c off_c off_d).st.working_buffer = (s off_c).data ∧
    ((seek s st c off_c off_d).err = some SeekError.argumentOutOfBound ↔
      (s off_c).data.length < off_d) ∧
    (off_d ≤ (s off_c).data.length →
      (seek s st c off_c off_d).err = none ∧
      (seek s st c off_c off_d).st.pos = off_d) := by
  have hseek : seek s st c off_c off_d = slowSeek s st c off_c off_d := by
    simp [seek, hslow]
  obtain ⟨h1, h2, h3, h4, h5⟩ := slowSeek_real s st c off_c off_d hwf hc hreal
  rw [hseek]
  exact ⟨h1, h2, h4, fun hle => ⟨(h5 hle).1, (h5 hle).2.1⟩⟩

/-- C3 witness: seeking to the two-byte frame of streamB at offset 128
with decompressed offset 5 fails with the out-of-bounds error. -/
theorem slow_seek_out_of_bounds_iff_witness :
    (seek streamB (mkReader "p") [] 128 5).err =
      some SeekError.argumentOutOfBound := by
  have h := slow_seek_out_of_bounds_iff streamB (mkReader "p") [] 128 5
    streamB_wf (cacheConsistent_nil streamB "p") (by decide) (by decide)
  exact h.2.2.1.mpr (by decide)

/-- C10: when a slow-path seek fails with the out-of-bounds error, the
state is not rolled back: the reader still holds the block loaded at
the requested compressed offset and file_pos equals that offset plus
the compressed size of the block, exactly as after a successful call. -/
theorem failed_seek_no_rollback (s : FrameStream) (st : ReaderState)
    (c : Cache) (off_c off_d : Nat)
    (hwf : streamWF s) (hc : cacheConsistent s st.path c)
    (hslow : fastPathCond st off_c off_d = false)
    (hreal : (s off_c).compressed_size ≠ 0)
    (hfail : (seek s st c off_c off_d).err = some SeekError.argumentOutOfBound) :
    (seek s st c off_c off_d).st.owned_cell = some (s off_c) ∧
    (seek s st c off_c off_d).st.file_pos = off_c + (s off_c).compressed_size := by
  have hseek : seek s st c off_c off_d = slowSeek s st c off_c off_d := by
    simp [seek, hslow]
  obtain ⟨h1, h2, h3, h4, h5⟩ := slowSeek_real s st c off_c off_d hwf hc hreal
  rw [hseek]
  exact ⟨h3, h1⟩

/-- C10 witness: seeking into streamA past the three-byte payload of the
frame at offset 0 fails, yet the reader holds that block and file_pos
sits past its compressed bytes. -/
theorem failed_seek_no_rollback_witness :
    (seek streamA (mkReader "p") [] 0 5).st.owned_cell = some (streamA 0) ∧
    (seek streamA (mkReader "p") [] 0 5).st.file_pos =
      0 + (streamA 0).compressed_size :=
  failed_seek_no_rollback streamA (mkReader "p") [] 0 5 streamA_wf
    (cacheConsistent_nil streamA "p") (by decide) (by decide) (by decide)

/-- C4: under the fast-path condition, the bytes readable after the
fast-path seek are identical to those readable after a slow-path reload
at the same coordinates, neither call throws, and the byte counter ends
up the same under either path. -/
theorem seek_fast_slow_equiv (s : FrameStream) (st : ReaderState) (c : Cache)
    (off_c off_d : Nat) (cell : Block)
    (hwf : streamWF s) (hc : cacheConsistent s st.path c)
    (hcell : st.owned_cell = some cell)
    (hblk : cell = s off_c)
    (hne : cell.data ≠ [])
    (hwb : st.working_buffer = cell.data)
    (hfp : st.file_pos = off_c + cell.compressed_size)
    (hW1 : off_c < W) (hW2 : cell.compressed_size < W)
    (hd : off_d ≤ cell.data.length) :
    (seek s st c off_c off_d).err = none ∧
    (slowSeek s st c off_c off_d).err = none ∧
    readable (seek s st c off_c off_d).st =
      readable (slowSeek s st c off_c off_d).st ∧
    (seek s st c off_c off_d).st.bytes = (slowSeek s st c off_c off_d).st.bytes := by
  have hreal : (s off_c).compressed_size ≠ 0 := by
    intro h0
    apply hne
    rw [hblk]
    exact (hwf off_c).mp h0
  have hsub : sub64 st.file_pos cell.compressed_size = off_c := by
    rw [hfp]
    exact sub64_add_cancel off_c cell.compressed_size hW1 hW2
  have hfast : fastPathCond st off_c off_d = true := by
    simp [fastPathCond, hcell, hsub, hwb, hd]
  obtain ⟨h1, h2, h3, h4, h5⟩ := slowSeek_real s st c off_c off_d hwf hc hreal
  have hd2 : off_d ≤ (s off_c).data.length := by rw [← hblk]; exact hd
  obtain ⟨he, hp, hb⟩ := h5 hd2
  have hfastseek : seek s st c off_c off_d =
      { st := { st with pos := off_d, bytes := sub64 (add64 st.bytes st.pos) off_d },
        cache := c, err := none, events := [] } := by
    simp [seek, hfast]
  rw [hfastseek]
  refine ⟨rfl, he, ?_, ?_⟩
  · show st.working_buffer.drop off_d = readable (slowSeek s st c off_c off_d).st
    unfold readable
    rw [h2, hp, hwb, hblk]
  · show sub64 (add64 st.bytes st.pos) off_d = (slowSeek s st c off_c off_d).st.bytes
    exact hb.symm

/-- C4 witness: readerA holds the frame of streamA at offset 0; fast
seek and slow reload at (0, 1) expose the same bytes. -/
theorem seek_fast_slow_equiv_witness :
    readable (seek streamA readerA [] 0 1).st =
      readable (slowSeek streamA readerA [] 0 1).st := by
  have h := seek_fast_slow_equiv streamA readerA [] 0 1 blockA streamA_wf
    (cacheConsistent_nil streamA "p") rfl (by decide) (by decide) rfl
    (by decide) (by decide) (by decide) (by decide)
  exact h.2.2.1

/-- C2 counterexample: in streamA the frame at offset 128 is the
end-of-stream sentinel, yet after read_next has consumed the frame at
offset 0, seek(128, 0) does not signal exhaustion: it succeeds and
leaves the three bytes of the previous block readable, because seek
ignores the false return of nextImpl and repositions the cursor at the
start of the stale working buffer. -/
theorem seek_sentinel_counterexample :
    (streamA 128).compressed_size = 0 ∧
    (seek streamA (nextImpl streamA (mkReader "p") []).st
        (nextImpl streamA (mkReader "p") []).cache 128 0).err = none ∧
    readable (seek streamA (nextImpl streamA (mkReader "p") []).st
        (nextImpl streamA (mkReader "p") []).cache 128 0).st = [1, 2, 3] ∧
    readable (seek streamA (nextImpl streamA (mkReader "p") []).st
        (nextImpl streamA (mkReader "p") []).cache 128 0).st ≠ [] := by
  decide

/-- C2 amended: at an offset carrying the zero-length end-of-stream
frame, read_next returns false and the sentinel is never observable via
a subsequent cache.get; a slow-path seek to (that offset, 0) likewise
leaves the sentinel unobservable in the cache and releases the owned
block, but it does not signal exhaustion: it succeeds and leaves the
previous working buffer readable from its start (an empty span only
when that buffer was already empty). -/
theorem seek_sentinel_amended (s : FrameStream) (st : ReaderState) (c : Cache)
    (off_c : Nat)
    (hwf : streamWF s) (hc : cacheConsistent s st.path c)
    (hsent : (s off_c).compressed_size = 0)
    (hslow : fastPathCond st off_c 0 = false) :
    (nextImpl s { st with file_pos := off_c } c).ok = false ∧
    Cache.get (nextImpl s { st with file_pos := off_c } c).cache (st.path, off_c) = none ∧
    (seek s st c off_c 0).err = none ∧
    (seek s st c off_c 0).st.owned_cell = none ∧
    Cache.get (seek s st c off_c 0).cache (st.path, off_c) = none ∧
    readable (seek s st c off_c 0).st = st.working_buffer := by
  have hgetnone := get_sentinel_none s st.path c off_c hwf hc hsent
  obtain ⟨h1ok, h1own, h1wb, h1fp, h1pos, h1bytes, h1cache⟩ :=
    nextImpl_sentinel s { st with file_pos := off_c } c hwf hc hsent
  have hseek : seek s st c off_c 0 = slowSeek s st c off_c 0 := by
    simp [seek, hslow]
  obtain ⟨h2ok, h2own, h2wb, h2fp, h2pos, h2bytes, h2cache⟩ :=
    nextImpl_sentinel s { st with file_pos := off_c, bytes := add64 st.bytes st.pos } c
      hwf hc hsent
  have hcond : ¬ ((nextImpl s { st with file_pos := off_c, bytes := add64 st.bytes st.pos }
      c).st.working_buffer.length < 0) := by omega
  have hs : slowSeek s st c off_c 0 =
      { st := { (nextImpl s { st with file_pos := off_c, bytes := add64 st.bytes st.pos } c).st with
          pos := 0,
          bytes := sub64 (nextImpl s { st with file_pos := off_c, bytes := add64 st.bytes st.pos } c).st.bytes 0 },
        cache := (nextImpl s { st with file_pos := off_c, bytes := add64 st.bytes st.pos } c).cache,
        err := none,
        events := (nextImpl s { st with file_pos := off_c, bytes := add64 st.bytes st.pos } c).events } := by
    simp [slowSeek, hcond]
  rw [hseek, hs]
  refine ⟨h1ok, ?_, rfl, ?_, ?_, ?_⟩
  · rw [h1cache]
    exact hgetnone
  · exact h2own
  · rw [h2cache]
    exact hgetnone
  · show (nextImpl s { st with file_pos := off_c, bytes := add64 st.bytes st.pos }
        c).st.working_buffer.drop 0 = st.working_buffer
    rw [List.drop_zero]
    exact h2wb

/-- C2 amended witness: a fresh reader on the empty stream. -/
theorem seek_sentinel_amended_witness :
    (seek emptyStream (mkReader "q") [] 5 0).err = none ∧
    (seek emptyStream (mkReader "q") [] 5 0).st.owned_cell = none := by
  have h := seek_sentinel_amended emptyStream (mkReader "q") [] 5
    emptyStream_wf (cacheConsistent_nil emptyStream "q") rfl (by decide)
  exact ⟨h.2.2.1, h.2.2.2.1⟩
